import Mathlib

/-
  Verification development for the Riyadh urban-data scraper.

  The development shallowly embeds the two source programs:
    * data_downloader.py — the resumable concurrent harvester
      (fetch_parcel, the resume filter, the chunked CSV sink);
    * tile_downloader.py — the tile-grid enumerator, slippy-map
      projections, feature id extraction and centroid deduplication.

  Python dictionaries and JSON values are modelled by the inductive
  type Value below; rows (Python dicts keyed by strings) are assoc
  lists with last-write-wins update semantics (setk / getk).
-/

namespace Scraper

/-- Model of a Python / JSON value as it occurs in the scraper:
None, bools, ints, strings, lists and string-keyed dicts. -/
inductive Value where
  | vnone
  | vbool (b : Bool)
  | vint (n : Int)
  | vstr (s : String)
  | vlist (l : List Value)
  | vdict (d : List (String × Value))

mutual

/-- Structural equality on values (models Python `==` as used by
pandas drop_duplicates on identifier columns). -/
def Value.beq : Value → Value → Bool
  | .vnone, .vnone => true
  | .vbool a, .vbool b => a == b
  | .vint a, .vint b => a == b
  | .vstr a, .vstr b => a == b
  | .vlist a, .vlist b => Value.lbeq a b
  | .vdict a, .vdict b => Value.dbeq a b
  | _, _ => false

/-- Elementwise equality of value lists. -/
def Value.lbeq : List Value → List Value → Bool
  | [], [] => true
  | x :: xs, y :: ys => Value.beq x y && Value.lbeq xs ys
  | _, _ => false

/-- Elementwise equality of dict entry lists. -/
def Value.dbeq : List (String × Value) → List (String × Value) → Bool
  | [], [] => true
  | (k, v) :: xs, (k2, v2) :: ys => k == k2 && Value.beq v v2 && Value.dbeq xs ys
  | _, _ => false

end

mutual

/-- Model of json.dumps on a value (data_downloader.py line 112).
The exact rendering is irrelevant to the claims; what matters is that
the unknown-key bucket is serialized into the extra_data field. -/
def jsonDumps : Value → String
  | .vnone => "null"
  | .vbool b => if b then "true" else "false"
  | .vint n => toString n
  | .vstr s => "\"" ++ s ++ "\""
  | .vlist l => "[" ++ jsonDumpsList l ++ "]"
  | .vdict d => "\x7b" ++ jsonDumpsDict d ++ "\x7d"

/-- Serialization of the elements of a JSON array. -/
def jsonDumpsList : List Value → String
  | [] => ""
  | [x] => jsonDumps x
  | x :: xs => jsonDumps x ++ ", " ++ jsonDumpsList xs

/-- Serialization of the entries of a JSON object. -/
def jsonDumpsDict : List (String × Value) → String
  | [] => ""
  | [(k, v)] => "\"" ++ k ++ "\": " ++ jsonDumps v
  | (k, v) :: xs => "\"" ++ k ++ "\": " ++ jsonDumps v ++ ", " ++ jsonDumpsDict xs

end

/-- A Python dict keyed by strings, e.g. one input or output row. -/
abbrev Row := List (String × Value)

/-- Python truthiness (`bool(v)`) for the modelled values. -/
def truthy : Value → Bool
  | .vnone => false
  | .vbool b => b
  | .vint n => !(n == 0)
  | .vstr s => !(s == "")
  | .vlist l => !l.isEmpty
  | .vdict d => !d.isEmpty

/-- Dict lookup with default, modelling Python `d.get(k, dflt)`. -/
def getkD (r : Row) (k : String) (dflt : Value) : Value :=
  match r.find? (fun kv => kv.1 == k) with
  | some kv => kv.2
  | none => dflt

/-- Dict lookup modelling Python `d.get(k)` (default None). -/
def getk (r : Row) (k : String) : Value :=
  getkD r k Value.vnone

/-- Removal of a key, modelling a dict in which `k` is absent. -/
def removeKey (r : Row) (k : String) : Row :=
  r.filter (fun kv => !(kv.1 == k))

/-- Dict assignment `d[k] = v`: any previous binding of `k` is
replaced, and lookups of other keys are unaffected. -/
def setk (r : Row) (k : String) (v : Value) : Row :=
  removeKey r k ++ [(k, v)]

/-
  data_downloader.py — configuration (lines 19-38).
-/

/-- CONCURRENT_LIMIT (line 19); bounds in-flight requests only, with
no effect on the per-entity results modelled here. -/
def CONCURRENT_LIMIT : Nat := 40

/-- SAVE_EVERY (line 20): flush threshold of the chunked sink. -/
def SAVE_EVERY : Nat := 1000

/-- MAX_RETRIES (line 21): attempts made per entity. -/
def MAX_RETRIES : Nat := 5

/-- FINAL_COLUMNS (lines 30-37): the fixed output column order. -/
def FINAL_COLUMNS : List String :=
  [r"parcel_id", r"parcel_objectid", r"lon", r"lat", r"rule_id",
   r"zoningId", r"zoningColor", r"zoningGroup", r"landuse", r"description",
   r"name", r"coloring", r"coloringDescription", r"maxBuildingCoefficient",
   r"maxBuildingHeight", r"maxParcelCoverage", r"maxRuleDepth",
   r"mainStreetsSetback", r"secondaryStreetsSetback", r"sideRearSetback",
   r"api_status", r"extra_data"]

/-- KNOWN_COLUMNS_SET (line 38): membership is what matters. -/
def KNOWN_COLUMNS_SET : List String := FINAL_COLUMNS

/-- Key of the api_status column. -/
def keyApiStatus : String := "api_status"

/-- Key of the extra_data column. -/
def keyExtraData : String := "extra_data"

/-- Key of the rule_id column. -/
def keyRuleId : String := "rule_id"

/-- The server's generic id key. -/
def keyId : String := "id"

/-- Key of the result list in the response body. -/
def keyData : String := "data"

/-- Key of the parcel_id column / feature property. -/
def keyParcelId : String := "parcel_id"

/-- Key of the parcel_objectid column / feature property. -/
def keyParcelObjectid : String := "parcel_objectid"

/-- Alternative object-id feature property. -/
def keyOBJECTID : String := "OBJECTID"

/-- Status string for a successful classification. -/
def sSUCCESS : String := "SUCCESS"

/-- Status string for an unparseable 200 body. -/
def sJSON_ERROR : String := "JSON_ERROR"

/-- Status string for a 200 body without a nonempty data list. -/
def sNO_DATA_IN_LIST : String := "NO_DATA_IN_LIST"

/-- Status string for an HTTP 404. -/
def sNOT_FOUND : String := "NOT_FOUND"

/-- Status string once all retries are exhausted. -/
def sFAILED_AFTER_RETRIES : String := "FAILED_AFTER_RETRIES"

/-
  data_downloader.py — the async worker fetch_parcel (lines 76-140).
-/

/-- base_row (line 83): the projection of the input row to the known
columns, `\x7bk: row.get(k) for k in row if k in KNOWN_COLUMNS_SET\x7d`. -/
def base_row (row : Row) : Row :=
  row.filter (fun kv => KNOWN_COLUMNS_SET.contains kv.1)

/-- Line 105: the server's generic `id` key is renamed to `rule_id`;
all other keys keep their names. -/
def targetKey (k : String) : String :=
  if k == keyId then keyRuleId else k

/-- The assignments performed by the loop of lines 104-109 whose
target key is known: (target, value) pairs in iteration order. -/
def knownPart (info : List (String × Value)) : List (String × Value) :=
  (info.map (fun kv => (targetKey kv.1, kv.2))).filter
    (fun kv => KNOWN_COLUMNS_SET.contains kv.1)

/-- extra_data_bucket (lines 102-109): the entries whose target key is
unknown, in iteration order. -/
def bucketPart (info : List (String × Value)) : List (String × Value) :=
  info.filter (fun kv => !(KNOWN_COLUMNS_SET.contains (targetKey kv.1)))

/-- Sequential dict assignments, modelling the known-key branch of the
loop of lines 104-109. -/
def setMany (r : Row) (l : List (String × Value)) : Row :=
  l.foldl (fun acc kv => setk acc kv.1 kv.2) r

/-- Lines 100-115: one output row per result-list element. Known-target
assignments and bucket accumulation commute in the Python loop (they
touch disjoint structures), so they are applied here in two passes;
then extra_data is serialized if the bucket is nonempty, and
api_status is set to SUCCESS last, exactly as in the source. -/
def classifyElem (bRow : Row) (info : List (String × Value)) : Row :=
  let nr := setMany bRow (knownPart info)
  let nr2 :=
    if (bucketPart info).isEmpty then nr
    else setk nr keyExtraData (Value.vstr (jsonDumps (Value.vdict (bucketPart info))))
  setk nr2 keyApiStatus (Value.vstr sSUCCESS)

/-- The loop `for info in data_list` (lines 100-115): rows are produced
in order until a non-dict element is reached, in which case
`info.items()` raises and the Boolean records that the outer exception
handler takes over (retaining the rows appended so far). -/
def classifyRows (bRow : Row) : List Value → List Row × Bool
  | [] => ([], false)
  | Value.vdict info :: rest =>
      let r := classifyRows bRow rest
      (classifyElem bRow info :: r.1, r.2)
  | _ :: _ => ([], true)

/-- The observable outcome of one HTTP attempt against the API:
a 200 with an optional parsed body (`none` = response.json() raised),
a 404, a 429, any other status, or a connection fault / timeout. -/
inductive Attempt where
  | httpOk (body : Option Value)
  | httpNotFound
  | httpRateLimited
  | httpOther
  | connFault

/-- The observable result of fetch_parcel: the returned rows, the
sleep durations performed in order, and the number of loop iterations
(attempts) actually executed. -/
structure FetchResult where
  rows : List Row
  sleeps : List Nat
  attempts : Nat

/-- The retry loop of lines 86-140, starting at a given attempt number
with the given number of remaining iterations:
  * 200 / unparseable body → JSON_ERROR, return;
  * 200 / object body with a nonempty `data` list → one SUCCESS row
    per element (a non-dict element raises mid-loop and is handled by
    the outer `except`: sleep 1 and continue, keeping partial rows);
  * 200 / body whose `data` is not a nonempty list → NO_DATA_IN_LIST;
  * 200 / non-object body → `.get` raises: sleep 1 and continue;
  * 404 → NOT_FOUND, return; 429 → sleep 2*attempt and continue;
  * other status or connection fault → sleep 1 and continue;
  * loop exhausted → one FAILED_AFTER_RETRIES row. -/
def fetchFrom (bRow : Row) (resp : Nat → Attempt) : Nat → Nat → FetchResult
  | _, 0 => ⟨[setk bRow keyApiStatus (Value.vstr sFAILED_AFTER_RETRIES)], [], 0⟩
  | attempt, fuel + 1 =>
    match resp attempt with
    | Attempt.httpOk none =>
        ⟨[setk bRow keyApiStatus (Value.vstr sJSON_ERROR)], [], 1⟩
    | Attempt.httpOk (some (Value.vdict d)) =>
        (match getkD d keyData (Value.vlist []) with
         | Value.vlist l =>
             if l.isEmpty then
               ⟨[setk bRow keyApiStatus (Value.vstr sNO_DATA_IN_LIST)], [], 1⟩
             else
               let c := classifyRows bRow l
               if c.2 then
                 let r := fetchFrom bRow resp (attempt + 1) fuel
                 ⟨c.1 ++ r.rows, 1 :: r.sleeps, r.attempts + 1⟩
               else ⟨c.1, [], 1⟩
         | _ => ⟨[setk bRow keyApiStatus (Value.vstr sNO_DATA_IN_LIST)], [], 1⟩)
    | Attempt.httpOk (some _) =>
        let r := fetchFrom bRow resp (attempt + 1) fuel
        ⟨r.rows, 1 :: r.sleeps, r.attempts + 1⟩
    | Attempt.httpNotFound =>
        ⟨[setk bRow keyApiStatus (Value.vstr sNOT_FOUND)], [], 1⟩
    | Attempt.httpRateLimited =>
        let r := fetchFrom bRow resp (attempt + 1) fuel
        ⟨r.rows, 2 * attempt :: r.sleeps, r.attempts + 1⟩
    | Attempt.httpOther =>
        let r := fetchFrom bRow resp (attempt + 1) fuel
        ⟨r.rows, 1 :: r.sleeps, r.attempts + 1⟩
    | Attempt.connFault =>
        let r := fetchFrom bRow resp (attempt + 1) fuel
        ⟨r.rows, 1 :: r.sleeps, r.attempts + 1⟩

/-- fetch_parcel (lines 76-140), as a function of the input row and of
the attempt-indexed stream of HTTP outcomes. -/
def fetch_parcel (row : Row) (resp : Nat → Attempt) : FetchResult :=
  fetchFrom (base_row row) resp 1 MAX_RETRIES

/-
  data_downloader.py — resume initialization (lines 53-66).
-/

/-- The state of the prior output file when a run starts: absent, or
present with a given byte size and either a successfully read
parcel_objectid column or a failed read (`none`, covering empty,
header-corrupt and otherwise unreadable files). -/
inductive PriorOutput where
  | missing
  | present (readIds : Option (List String)) (size : Nat)

/-- What lines 53-66 establish before the run: processed_ids,
write_header, and whether the skipping message was printed. -/
structure ResumeInit where
  processed_ids : List String
  write_header : Bool
  logged : Bool

/-- Lines 53-66: processed_ids starts empty and write_header true; a
readable prior output fills processed_ids, clears write_header and
logs; a failed read leaves processed_ids empty, clears write_header
only when the file is nonempty, and prints nothing. -/
def resumeInit : PriorOutput → ResumeInit
  | PriorOutput.missing => ⟨[], true, false⟩
  | PriorOutput.present (some ids) _ => ⟨ids, false, true⟩
  | PriorOutput.present none size => ⟨[], size == 0, false⟩

/-- One candidate entity read from the input file (after the dropna of
line 51 every candidate carries a parcel_objectid string). -/
structure Candidate where
  parcel_objectid : String
  payload : Row

/-- Line 66: the candidates whose parcel_objectid is not among the
processed ids. -/
def parcels_to_do (cands : List Candidate) (processed : List String) : List Candidate :=
  cands.filter (fun c => !(processed.contains c.parcel_objectid))

/-
  data_downloader.py — the chunked sink of main() (lines 145-179).
-/

/-- One write to the output file: a chunk of reindexed rows, written
either fresh with a header or appended without one. -/
inductive FileOp where
  | writeWithHeader (chunk : List (List Value))
  | appendRows (chunk : List (List Value))

/-- Line 163: reindex(columns=FINAL_COLUMNS) — each row projected to
the fixed column order (missing columns become null cells). -/
def reindexRow (r : Row) : List Value :=
  FINAL_COLUMNS.map (fun c => getk r c)

/-- The mutable state of the main loop: results_buffer, write_header,
and the writes performed so far. -/
structure SinkState where
  buffer : List Row
  write_header : Bool
  ops : List FileOp

/-- Lines 162-171 / 174-179: one flush of a buffer, with or without
header according to write_header. -/
def flushOp (wh : Bool) (buf : List Row) : FileOp :=
  if wh then FileOp.writeWithHeader (buf.map reindexRow)
  else FileOp.appendRows (buf.map reindexRow)

/-- Lines 157-171: consuming one completed entity result — extend the
buffer and flush it (clearing write_header) once it reaches
SAVE_EVERY. -/
def sinkStep (st : SinkState) (result : List Row) : SinkState :=
  let buf := st.buffer ++ result
  if SAVE_EVERY ≤ buf.length then
    ⟨[], false, st.ops ++ [flushOp st.write_header buf]⟩
  else ⟨buf, st.write_header, st.ops⟩

/-- Lines 173-179: the final drain of a nonempty leftover buffer. -/
def sinkDrain (st : SinkState) : List FileOp :=
  if st.buffer.isEmpty then st.ops
  else st.ops ++ [flushOp st.write_header st.buffer]

/-- main() (lines 145-179) as a function of the initial write_header
flag and of the per-entity row lists in completion order: the file
writes performed by the run. -/
def runSink (wh : Bool) (results : List (List Row)) : List FileOp :=
  sinkDrain (results.foldl sinkStep ⟨[], wh, []⟩)

/-- The chunk carried by a write. -/
def opChunk : FileOp → List (List Value)
  | FileOp.writeWithHeader c => c
  | FileOp.appendRows c => c

/-- Whether a write emits the header row. -/
def opHasHeader : FileOp → Bool
  | FileOp.writeWithHeader _ => true
  | FileOp.appendRows _ => false

/-- Number of header rows written by a run. -/
def headerCount (ops : List FileOp) : Nat :=
  (ops.filter opHasHeader).length

/-- Number of data rows written by a run. -/
def dataRowCount (ops : List FileOp) : Nat :=
  (ops.map (fun op => (opChunk op).length)).sum

/-
  tile_downloader.py — configuration (lines 13-14) and projections
  (lines 26-66).
-/

/-- ZOOM (line 13). -/
def ZOOM : Nat := 15

/-- EXTENT (line 14): the MVT tile-local coordinate range. -/
noncomputable def EXTENT : ℝ := 4096

/-- math.radians. -/
noncomputable def rad (x : ℝ) : ℝ := x * Real.pi / 180

/-- math.degrees. -/
noncomputable def deg (x : ℝ) : ℝ := x * 180 / Real.pi

/-- Python `int()` applied to a float: truncation toward zero, i.e.
the floor for nonnegative arguments and the ceiling for negative
ones. -/
noncomputable def truncR (x : ℝ) : ℤ :=
  if 0 ≤ x then ⌊x⌋ else ⌈x⌉

/-- lonlat_to_tile (lines 26-33): the slippy-map forward projection,
with Python's `int()` truncation applied to both components. -/
noncomputable def lonlat_to_tile (lon lat : ℝ) (z : ℕ) : ℤ × ℤ :=
  (truncR ((lon + 180) / 360 * (2 ^ z : ℝ)),
   truncR ((1 - Real.log (Real.tan (rad lat) + 1 / Real.cos (rad lat)) / Real.pi)
            / 2 * (2 ^ z : ℝ)))

/-- The real-valued x component of the forward projection, before
truncation. -/
noncomputable def fwdX (lon : ℝ) (z : ℕ) : ℝ :=
  (lon + 180) / 360 * (2 ^ z : ℝ)

/-- The real-valued y component of the forward projection, before
truncation (the global fractional tile row, increasing southward). -/
noncomputable def fwdY (lat : ℝ) (z : ℕ) : ℝ :=
  (1 - Real.log (Real.tan (rad lat) + 1 / Real.cos (rad lat)) / Real.pi)
    / 2 * (2 ^ z : ℝ)

/-- tile_coords_to_lonlat (lines 35-66): tile-local coordinates back
to WGS84, flipping py before normalizing (fy = (extent - py)/extent)
and applying the inverse Mercator formula. -/
noncomputable def tile_coords_to_lonlat (px py : ℝ) (z : ℕ) (tile_x tile_y : ℤ)
    (extent : ℝ) : ℝ × ℝ :=
  let fx := px / extent
  let fy := (extent - py) / extent
  let n : ℝ := (2 ^ z : ℝ)
  let x_frac := (tile_x : ℝ) + fx
  let y_frac := (tile_y : ℝ) + fy
  ((x_frac / n) * 360 - 180,
   deg (Real.arctan (Real.sinh (Real.pi * (1 - 2 * y_frac / n)))))

/-
  tile_downloader.py — tile grid enumeration (lines 134-145).
  The source binds the fixed bounding box of lines 20-21; the
  enumeration itself is parameterized here by the four corner
  coordinates exactly as lines 134-145 use them.
-/

/-- Python `range(a, b + 1)` over integers, as a list. -/
def rangeInt (a b : ℤ) : List ℤ :=
  (List.range (b + 1 - a).toNat).map (fun (i : ℕ) => a + (i : ℤ))

/-- Lines 134-145: project the two bbox corners (west, north) and
(east, south), take per-axis min/max, and enumerate the full
rectangle of (x, y) pairs inclusive. -/
noncomputable def tiles (north west south east : ℝ) (z : ℕ) : List (ℤ × ℤ) :=
  let c1 := lonlat_to_tile west north z
  let c2 := lonlat_to_tile east south z
  let x_start := min c1.1 c2.1
  let x_end := max c1.1 c2.1
  let y_start := min c1.2 c2.2
  let y_end := max c1.2 c2.2
  (rangeInt x_start x_end).flatMap
    (fun x => (rangeInt y_start y_end).map (fun y => (x, y)))

/-
  tile_downloader.py — feature processing (lines 88-118) and
  deduplication (line 163).
-/

/-- Python `a or b` on values: `a` if truthy, otherwise `b`. -/
def pyOr (a b : Value) : Value :=
  if truthy a then a else b

/-- Line 92: `props.get("parcel_id") or props.get("id")`. -/
def extractParcelId (props : Row) : Value :=
  pyOr (getk props keyParcelId) (getk props keyId)

/-- Line 93: `props.get("parcel_objectid") or props.get("OBJECTID")`. -/
def extractParcelObjectid (props : Row) : Value :=
  pyOr (getk props keyParcelObjectid) (getk props keyOBJECTID)

/-- One saved centroid record (lines 110-115). -/
structure Centroid where
  parcel_id : Value
  parcel_objectid : Value
  lon : ℝ
  lat : ℝ

/-- Lines 88-115 for one feature of the decoded layer: extract the two
identifiers by truthiness fallback, and emit a centroid record exactly
when both identifiers and the geometry are truthy. The geometry
centroid computation (shapely, external to this repository) is passed
in as the function `cf`; its output feeds tile_coords_to_lonlat as in
lines 106-108. -/
noncomputable def process_feature (cf : Value → ℝ × ℝ) (x y : ℤ) (props : Row)
    (geom : Value) : Option Centroid :=
  let pid := extractParcelId props
  let poid := extractParcelObjectid props
  if truthy pid && truthy poid && truthy geom then
    let c := cf geom
    let ll := tile_coords_to_lonlat c.1 c.2 ZOOM x y EXTENT
    some ⟨pid, poid, ll.1, ll.2⟩
  else none

/-- Recursive worker of the deduplication, carrying the key values
already seen. -/
def dedupGo (key : Centroid → Value) (seen : List Value) :
    List Centroid → List Centroid
  | [] => []
  | c :: rest =>
      if seen.any (fun v => Value.beq v (key c)) then dedupGo key seen rest
      else c :: dedupGo key (key c :: seen) rest

/-- pandas `drop_duplicates(subset=[key])` (line 163): keep the first
record for each key value, in order. -/
def dropDuplicatesBy (key : Centroid → Value) (l : List Centroid) :
    List Centroid :=
  dedupGo key [] l

/-- Line 163 as written in the source: deduplication of the collected
centroids on the parcel_id column. -/
def drop_duplicates (l : List Centroid) : List Centroid :=
  dropDuplicatesBy (fun c => c.parcel_id) l

/-
  Concrete sample data used by witnesses and counterexamples.
-/

/-- A sample object id. -/
def sampleOid : String := "A"

/-- A sample parcel_id value, distinct from samplePidB. -/
def samplePidA : String := "a"

/-- A second sample parcel_id value. -/
def samplePidB : String := "b"

/-- A centroid record with parcel_id a and object id A. -/
def cexCentroidA : Centroid :=
  ⟨Value.vstr samplePidA, Value.vstr sampleOid, 0, 0⟩

/-- A centroid record with parcel_id b and the same object id A. -/
def cexCentroidB : Centroid :=
  ⟨Value.vstr samplePidB, Value.vstr sampleOid, 0, 0⟩

/-- A one-entity result stream: a single entity that produced one
SUCCESS row. -/
def sampleResults : List (List Row) :=
  [[[(keyApiStatus, Value.vstr sSUCCESS)]]]

/-- A sample API result element carrying only an `id`. -/
def sampleInfo : List (String × Value) := [(keyId, Value.vint 1)]

/-- A sample parsed 200 body whose data list holds sampleInfo. -/
def sampleD : Row := [(keyData, Value.vlist [Value.vdict sampleInfo])]

/-
  Basic lemmas about the dict operations.
-/

theorem find?_removeKey_self (r : Row) (k : String) :
    (removeKey r k).find? (fun kv => kv.1 == k) = none := by
  rw [List.find?_eq_none]
  intro x hx
  have h := List.mem_filter.mp hx
  simpa using h.2

theorem getk_setk_same (r : Row) (k : String) (v : Value) :
    getk (setk r k v) k = v := by
  unfold getk getkD setk
  rw [List.find?_append, find?_removeKey_self]
  simp

theorem find?_filter_ne (k k2 : String) (h : k2 ≠ k) (tl : Row) :
    (List.filter (fun kv => !(kv.1 == k)) tl).find? (fun kv => kv.1 == k2)
      = tl.find? (fun kv => kv.1 == k2) := by
  induction tl with
  | nil => rfl
  | cons hd tl ih =>
      rw [List.filter_cons]
      cases hbk : (hd.1 == k) with
      | true =>
          have hk : hd.1 = k := by simpa using hbk
          have hne : (hd.1 == k2) = false := by
            simp only [hk, beq_eq_false_iff_ne, ne_eq]
            exact Ne.symm h
          simp [hbk, List.find?_cons, hne, ih]
      | false =>
          cases hb2 : (hd.1 == k2) with
          | true => simp [hbk, List.find?_cons, hb2]
          | false => simp [hbk, List.find?_cons, hb2, ih]

theorem getk_setk_ne (r : Row) (k k2 : String) (v : Value) (h : k2 ≠ k) :
    getk (setk r k v) k2 = getk r k2 := by
  unfold getk getkD setk removeKey
  rw [List.find?_append]
  have hb : (k == k2) = false := by
    simp only [beq_eq_false_iff_ne, ne_eq]
    exact Ne.symm h
  have hlast : List.find? (fun kv => kv.1 == k2) [(k, v)] = none := by
    simp [List.find?_cons, hb]
  rw [hlast, find?_filter_ne k k2 h]
  cases tl : r.find? (fun kv => kv.1 == k2) <;> simp

theorem getk_removeKey_ne (r : Row) (k k2 : String) (h : k2 ≠ k) :
    getk (removeKey r k) k2 = getk r k2 := by
  unfold getk getkD removeKey
  rw [find?_filter_ne k k2 h]

theorem getk_removeKey_self (r : Row) (k : String) :
    getk (removeKey r k) k = Value.vnone := by
  unfold getk getkD
  rw [find?_removeKey_self]

/-
  Lemmas about the classifier and the retry loop.
-/

theorem classifyElem_apiStatus (bRow : Row) (info : List (String × Value)) :
    getk (classifyElem bRow info) keyApiStatus = Value.vstr sSUCCESS := by
  unfold classifyElem
  exact getk_setk_same _ _ _

theorem classifyRows_mem_apiStatus (bRow : Row) :
    ∀ (l : List Value), ∀ r ∈ (classifyRows bRow l).1,
      getk r keyApiStatus = Value.vstr sSUCCESS := by
  intro l
  induction l with
  | nil => intro r hr; simp [classifyRows] at hr
  | cons hd rest ih =>
      intro r hr
      cases hd with
      | vdict info =>
          simp only [classifyRows] at hr
          rcases List.mem_cons.mp hr with h | h
          · rw [h]; exact classifyElem_apiStatus bRow info
          · exact ih r h
      | vnone => simp [classifyRows] at hr
      | vbool b => simp [classifyRows] at hr
      | vint n => simp [classifyRows] at hr
      | vstr s => simp [classifyRows] at hr
      | vlist l2 => simp [classifyRows] at hr

theorem classifyRows_ne_nil (bRow : Row) (v : Value) (rest : List Value)
    (h : (classifyRows bRow (v :: rest)).2 = false) :
    (classifyRows bRow (v :: rest)).1 ≠ [] := by
  cases v <;> simp_all [classifyRows]

theorem mem_singleton_status (bRow : Row) (s : String) :
    ∀ r ∈ [setk bRow keyApiStatus (Value.vstr s)],
      ∃ s2, getk r keyApiStatus = Value.vstr s2 := by
  intro r hr
  rw [List.mem_singleton] at hr
  rw [hr]
  exact ⟨s, getk_setk_same _ _ _⟩

theorem fetchFrom_rows_sound (bRow : Row) (resp : Nat → Attempt) :
    ∀ (fuel attempt : Nat),
      (fetchFrom bRow resp attempt fuel).rows ≠ [] ∧
      ∀ r ∈ (fetchFrom bRow resp attempt fuel).rows,
        ∃ s, getk r keyApiStatus = Value.vstr s := by
  intro fuel
  induction fuel with
  | zero =>
      intro attempt
      exact ⟨by simp [fetchFrom], mem_singleton_status bRow sFAILED_AFTER_RETRIES⟩
  | succ fuel ih =>
      intro attempt
      cases hresp : resp attempt with
      | httpOk body =>
          cases body with
          | none =>
              simp only [fetchFrom, hresp]
              exact ⟨by simp, mem_singleton_status bRow sJSON_ERROR⟩
          | some v =>
              cases v with
              | vdict d =>
                  simp only [fetchFrom, hresp]
                  cases hdl : getkD d keyData (Value.vlist []) with
                  | vlist l =>
                      simp only [hdl]
                      cases hle : l.isEmpty with
                      | true =>
                          simp only [hle, if_true]
                          exact ⟨by simp, mem_singleton_status bRow sNO_DATA_IN_LIST⟩
                      | false =>
                          simp only [hle, Bool.false_eq_true, if_false]
                          cases hflag : (classifyRows bRow l).2 with
                          | true =>
                              simp only [hflag, if_true]
                              constructor
                              · intro hnil
                                have h2 := List.append_eq_nil.mp hnil
                                exact (ih (attempt + 1)).1 h2.2
                              · intro r hr
                                rcases List.mem_append.mp hr with h | h
                                · exact ⟨sSUCCESS, classifyRows_mem_apiStatus bRow l r h⟩
                                · exact (ih (attempt + 1)).2 r h
                          | false =>
                              simp only [hflag, Bool.false_eq_true, if_false]
                              constructor
                              · cases l with
                                | nil => simp at hle
                                | cons hd rest =>
                                    exact classifyRows_ne_nil bRow hd rest hflag
                              · intro r hr
                                exact ⟨sSUCCESS, classifyRows_mem_apiStatus bRow l r hr⟩
                  | vnone =>
                      simp only [hdl]
                      exact ⟨by simp, mem_singleton_status bRow sNO_DATA_IN_LIST⟩
                  | vbool b =>
                      simp only [hdl]
                      exact ⟨by simp, mem_singleton_status bRow sNO_DATA_IN_LIST⟩
                  | vint n =>
                      simp only [hdl]
                      exact ⟨by simp, mem_singleton_status bRow sNO_DATA_IN_LIST⟩
                  | vstr s =>
                      simp only [hdl]
                      exact ⟨by simp, mem_singleton_status bRow sNO_DATA_IN_LIST⟩
                  | vdict d2 =>
                      simp only [hdl]
                      exact ⟨by simp, mem_singleton_status bRow sNO_DATA_IN_LIST⟩
              | vnone =>
                  simp only [fetchFrom, hresp]
                  exact ih (attempt + 1)
              | vbool b =>
                  simp only [fetchFrom, hresp]
                  exact ih (attempt + 1)
              | vint n =>
                  simp only [fetchFrom, hresp]
                  exact ih (attempt + 1)
              | vstr s =>
                  simp only [fetchFrom, hresp]
                  exact ih (attempt + 1)
              | vlist l =>
                  simp only [fetchFrom, hresp]
                  exact ih (attempt + 1)
      | httpNotFound =>
          simp only [fetchFrom, hresp]
          exact ⟨by simp, mem_singleton_status bRow sNOT_FOUND⟩
      | httpRateLimited =>
          simp only [fetchFrom, hresp]
          exact ih (attempt + 1)
      | httpOther =>
          simp only [fetchFrom, hresp]
          exact ih (attempt + 1)
      | connFault =>
          simp only [fetchFrom, hresp]
          exact ih (attempt + 1)

/-
  Claim C1 — retry cap under permanent HTTP 429.
-/

/-- C1: when every attempt yields HTTP 429, fetch_parcel performs
exactly MAX_RETRIES attempts, sleeps the linear backoff delay
2 * attempt after each of them, and returns exactly one row whose
api_status is FAILED_AFTER_RETRIES. -/
theorem C1_retry_cap_429 (row : Row) :
    (fetch_parcel row (fun _ => Attempt.httpRateLimited)).attempts = MAX_RETRIES ∧
    (fetch_parcel row (fun _ => Attempt.httpRateLimited)).sleeps =
      (List.range MAX_RETRIES).map (fun i => 2 * (i + 1)) ∧
    ∃ r0, (fetch_parcel row (fun _ => Attempt.httpRateLimited)).rows = [r0] ∧
      getk r0 keyApiStatus = Value.vstr sFAILED_AFTER_RETRIES := by
  refine ⟨rfl, rfl, ⟨_, rfl, getk_setk_same _ _ _⟩⟩

/-
  Claim C2 — every entity yields at least one row, always with a
  non-null api_status.
-/

/-- C2: whatever the sequence of HTTP outcomes, fetch_parcel returns
a nonempty list of rows, and every returned row carries a non-null
api_status. -/
theorem C2_rows_never_dropped (row : Row) (resp : Nat → Attempt) :
    (fetch_parcel row resp).rows ≠ [] ∧
    ∀ r ∈ (fetch_parcel row resp).rows, getk r keyApiStatus ≠ Value.vnone := by
  obtain ⟨h1, h2⟩ := fetchFrom_rows_sound (base_row row) resp MAX_RETRIES 1
  refine ⟨h1, ?_⟩
  intro r hr
  obtain ⟨s, hs⟩ := h2 r hr
  rw [hs]
  intro hc
  exact Value.noConfusion hc

/-
  Claim C3 — the resume filter.
  The source (lines 53-66) never prints anything in the `except`
  branch, so the "unreadable case logged" part of the claim fails;
  everything else holds.
-/

/-- C3 counterexample: for an unreadable (but nonempty) prior output
the exception handler of lines 62-64 swallows the failure silently —
nothing is logged, contradicting the claim that the unreadable case
is logged. -/
theorem C3_counterexample_no_logging :
    (resumeInit (PriorOutput.present none 7)).logged = false ∧
    (resumeInit (PriorOutput.present none 7)).processed_ids = [] := by
  exact ⟨rfl, rfl⟩

/-- C3 (amended): the filter keeps exactly the candidates whose
parcel_objectid is not among the ids read from the prior output, and
a missing, empty, or unreadable prior output leaves the completed set
empty, so no candidate is discarded and the run continues — but the
unreadable case is swallowed silently, not logged. -/
theorem C3_resume_filter (cands : List Candidate) (prior : PriorOutput) :
    (∀ c, c ∈ parcels_to_do cands (resumeInit prior).processed_ids ↔
        (c ∈ cands ∧ ¬ c.parcel_objectid ∈ (resumeInit prior).processed_ids)) ∧
    (∀ ids size, prior = PriorOutput.present (some ids) size →
      (resumeInit prior).processed_ids = ids) ∧
    ((prior = PriorOutput.missing ∨ ∃ size, prior = PriorOutput.present none size) →
      ((resumeInit prior).processed_ids = [] ∧
        parcels_to_do cands (resumeInit prior).processed_ids = cands)) := by
  refine ⟨?_, ?_, ?_⟩
  · intro c
    unfold parcels_to_do
    rw [List.mem_filter]
    simp [List.elem_iff]
  · intro ids size h
    rw [h]
    rfl
  · intro hbad
    have hempty : (resumeInit prior).processed_ids = [] := by
      rcases hbad with h | ⟨size, h⟩
      · rw [h]; rfl
      · rw [h]; rfl
    refine ⟨hempty, ?_⟩
    rw [hempty]
    unfold parcels_to_do
    simp [List.filter_eq_self]

/-- C3 witness: a one-candidate run with no prior output keeps the
candidate and has an empty completed set. -/
theorem C3_resume_filter_witness :
    (∀ c, c ∈ parcels_to_do [⟨sampleOid, []⟩]
          (resumeInit PriorOutput.missing).processed_ids ↔
        (c ∈ [(⟨sampleOid, []⟩ : Candidate)] ∧
          ¬ c.parcel_objectid ∈ (resumeInit PriorOutput.missing).processed_ids)) ∧
    ((resumeInit PriorOutput.missing).processed_ids = [] ∧
      parcels_to_do [⟨sampleOid, []⟩]
          (resumeInit PriorOutput.missing).processed_ids =
        [⟨sampleOid, []⟩]) :=
  ⟨(C3_resume_filter [⟨sampleOid, []⟩] PriorOutput.missing).1,
   (C3_resume_filter [⟨sampleOid, []⟩] PriorOutput.missing).2.2 (Or.inl rfl)⟩

/-
  Claim C9 — deduplication of the saved centroid list.
  Line 163 deduplicates on parcel_id, not on parcel_objectid, so two
  saved records can share an object id; the claim as stated fails.
-/

/-- C9 counterexample: two centroids with distinct parcel_id but the
same parcel_objectid both survive drop_duplicates, so the saved list
does not have pairwise-distinct object ids. -/
theorem C9_counterexample_duplicate_objectid :
    (drop_duplicates [cexCentroidA, cexCentroidB]).map (fun c => c.parcel_objectid)
      = [Value.vstr sampleOid, Value.vstr sampleOid] ∧
    ¬ List.Pairwise (fun a b => a.parcel_objectid ≠ b.parcel_objectid)
        (drop_duplicates [cexCentroidA, cexCentroidB]) := by
  constructor
  · rfl
  · intro hp
    rw [show drop_duplicates [cexCentroidA, cexCentroidB]
          = [cexCentroidA, cexCentroidB] from rfl] at hp
    have h := (List.pairwise_cons.mp hp).1 cexCentroidB (List.mem_singleton.mpr rfl)
    exact h rfl

theorem dedupGo_spec (key : Centroid → Value) :
    ∀ (l : List Centroid) (seen : List Value),
      List.Pairwise (fun a b => Value.beq (key a) (key b) = false)
        (dedupGo key seen l) ∧
      ∀ c ∈ dedupGo key seen l, ∀ v ∈ seen, Value.beq v (key c) = false := by
  intro l
  induction l with
  | nil => intro seen; simp [dedupGo]
  | cons c rest ih =>
      intro seen
      by_cases hs : seen.any (fun v => Value.beq v (key c)) = true
      · simp only [dedupGo]
        rw [if_pos hs]
        exact ih seen
      · have hs2 : seen.any (fun v => Value.beq v (key c)) = false :=
          Bool.eq_false_iff.mpr hs
        simp only [dedupGo]
        rw [if_neg hs]
        constructor
        · rw [List.pairwise_cons]
          constructor
          · intro x hx
            exact (ih (key c :: seen)).2 x hx (key c) (List.mem_cons_self _ _)
          · exact (ih (key c :: seen)).1
        · intro x hx
          rcases List.mem_cons.mp hx with h | h
          · subst h
            intro v hv
            rw [List.any_eq_false] at hs2
            exact Bool.eq_false_iff.mpr (hs2 v hv)
          · intro v hv
            exact (ih (key c :: seen)).2 x h v (List.mem_cons_of_mem _ hv)

/-- C9 (amended): the saved entity list is deduplicated on parcel_id —
every two surviving records have distinct parcel_id values (the dedup
key of line 163 is parcel_id, not the object id). -/
theorem C9_dedup_on_parcel_id (l : List Centroid) :
    List.Pairwise (fun a b => Value.beq a.parcel_id b.parcel_id = false)
      (drop_duplicates l) :=
  (dedupGo_spec (fun c => c.parcel_id) l []).1

/-
  Claim C10 — truthiness-based id fallback in the tile decoder.
-/

theorem pyOr_falsy (a b : Value) (h : truthy a = false) : pyOr a b = b := by
  unfold pyOr
  rw [h]
  rfl

/-- C10: a feature whose identifier property is present but falsy is
processed exactly as if the property were absent (for both the
parcel_id and the parcel_objectid slots), and a centroid record is
emitted if and only if both extracted identifiers and the geometry
are truthy. -/
theorem C10_falsy_id_skipped (cf : Value → ℝ × ℝ) (x y : ℤ) (props : Row)
    (geom v : Value) (hv : truthy v = false) :
    (process_feature cf x y (setk props keyParcelId v) geom
        = process_feature cf x y (removeKey props keyParcelId) geom) ∧
    (process_feature cf x y (setk props keyParcelObjectid v) geom
        = process_feature cf x y (removeKey props keyParcelObjectid) geom) ∧
    ((process_feature cf x y props geom).isSome = true ↔
      (truthy (extractParcelId props) = true ∧
        truthy (extractParcelObjectid props) = true ∧ truthy geom = true)) := by
  refine ⟨?_, ?_, ?_⟩
  · unfold process_feature extractParcelId extractParcelObjectid
    rw [getk_setk_same props keyParcelId v,
        getk_setk_ne props keyParcelId keyId v (by decide),
        getk_setk_ne props keyParcelId keyParcelObjectid v (by decide),
        getk_setk_ne props keyParcelId keyOBJECTID v (by decide),
        getk_removeKey_self props keyParcelId,
        getk_removeKey_ne props keyParcelId keyId (by decide),
        getk_removeKey_ne props keyParcelId keyParcelObjectid (by decide),
        getk_removeKey_ne props keyParcelId keyOBJECTID (by decide),
        pyOr_falsy v _ hv, pyOr_falsy Value.vnone _ rfl]
  · unfold process_feature extractParcelId extractParcelObjectid
    rw [getk_setk_same props keyParcelObjectid v,
        getk_setk_ne props keyParcelObjectid keyId v (by decide),
        getk_setk_ne props keyParcelObjectid keyParcelId v (by decide),
        getk_setk_ne props keyParcelObjectid keyOBJECTID v (by decide),
        getk_removeKey_self props keyParcelObjectid,
        getk_removeKey_ne props keyParcelObjectid keyId (by decide),
        getk_removeKey_ne props keyParcelObjectid keyParcelId (by decide),
        getk_removeKey_ne props keyParcelObjectid keyOBJECTID (by decide),
        pyOr_falsy v _ hv, pyOr_falsy Value.vnone _ rfl]
  · unfold process_feature
    by_cases hc : (truthy (extractParcelId props) &&
        truthy (extractParcelObjectid props) && truthy geom) = true
    · rw [if_pos hc]
      simp only [Option.isSome_some, true_iff]
      simpa [Bool.and_eq_true, and_assoc] using hc
    · rw [if_neg hc]
      simp only [Option.isSome_none, Bool.false_eq_true, false_iff]
      intro hcon
      exact hc (by simp [Bool.and_eq_true, hcon.1, hcon.2.1, hcon.2.2])

/-
  Claim C4 — the chunked sink and the header policy.
  An existing but empty (zero-byte) output file is unreadable by the
  resume read, and since its size is 0 the handler of lines 62-64
  leaves write_header true — so the header IS written although the
  output file already existed, refuting the "never when the output
  file already existed" half of the claim. Everything else holds.
-/

theorem headerCount_append_flush (ops : List FileOp) (wh : Bool) (buf : List Row) :
    headerCount (ops ++ [flushOp wh buf])
      = headerCount ops + (if wh = true then 1 else 0) := by
  unfold headerCount flushOp
  rw [List.filter_append]
  cases wh <;> simp [opHasHeader]

theorem sinkFold_header (results : List (List Row)) :
    ∀ st : SinkState,
      ((results.foldl sinkStep st).ops = st.ops ∧
        (results.foldl sinkStep st).write_header = st.write_header) ∨
      ((results.foldl sinkStep st).write_header = false ∧
        headerCount (results.foldl sinkStep st).ops
          = headerCount st.ops + (if st.write_header = true then 1 else 0)) := by
  induction results with
  | nil => intro st; exact Or.inl ⟨rfl, rfl⟩
  | cons r rest ih =>
      intro st
      rw [List.foldl_cons]
      by_cases hcond : SAVE_EVERY ≤ (st.buffer ++ r).length
      · have hstep : sinkStep st r
            = ⟨[], false, st.ops ++ [flushOp st.write_header (st.buffer ++ r)]⟩ := by
          unfold sinkStep
          rw [if_pos hcond]
        rw [hstep]
        rcases ih ⟨[], false, st.ops ++ [flushOp st.write_header (st.buffer ++ r)]⟩
          with ⟨h1, h2⟩ | ⟨h1, h2⟩
        · right
          refine ⟨h2, ?_⟩
          rw [h1, headerCount_append_flush]
        · right
          refine ⟨h1, ?_⟩
          rw [h2, headerCount_append_flush]
          simp
      · have hstep : sinkStep st r
            = ⟨st.buffer ++ r, st.write_header, st.ops⟩ := by
          unfold sinkStep
          rw [if_neg hcond]
        rw [hstep]
        rcases ih ⟨st.buffer ++ r, st.write_header, st.ops⟩ with ⟨h1, h2⟩ | ⟨h1, h2⟩
        · exact Or.inl ⟨h1, h2⟩
        · exact Or.inr ⟨h1, h2⟩


theorem sinkFold_chunks (results : List (List Row)) :
    ∀ st : SinkState,
      (((results.foldl sinkStep st).ops.map opChunk).flatten
          ++ ((results.foldl sinkStep st).buffer.map reindexRow))
        = ((st.ops.map opChunk).flatten
            ++ ((st.buffer ++ results.flatten).map reindexRow)) := by
  induction results with
  | nil => intro st; simp
  | cons r rest ih =>
      intro st
      rw [List.foldl_cons, ih (sinkStep st r)]
      by_cases hcond : SAVE_EVERY ≤ (st.buffer ++ r).length
      · have hstep : sinkStep st r
            = ⟨[], false, st.ops ++ [flushOp st.write_header (st.buffer ++ r)]⟩ := by
          unfold sinkStep
          rw [if_pos hcond]
        rw [hstep]
        have hchunk : opChunk (flushOp st.write_header (st.buffer ++ r))
            = (st.buffer ++ r).map reindexRow := by
          unfold flushOp opChunk
          cases st.write_header <;> simp
        simp [hchunk, List.flatten_append]
      · have hstep : sinkStep st r
            = ⟨st.buffer ++ r, st.write_header, st.ops⟩ := by
          unfold sinkStep
          rw [if_neg hcond]
        rw [hstep]
        simp

theorem dataRowCount_eq_join_length (ops : List FileOp) :
    dataRowCount ops = ((ops.map opChunk).flatten).length := by
  unfold dataRowCount
  rw [List.length_flatten, List.map_map]
  rfl

theorem runSink_chunks (wh : Bool) (results : List (List Row)) :
    ((runSink wh results).map opChunk).flatten = (results.flatten).map reindexRow := by
  unfold runSink sinkDrain
  have hf := sinkFold_chunks results ⟨[], wh, []⟩
  simp only [List.map_nil, List.flatten_nil, List.nil_append] at hf
  by_cases hb : (results.foldl sinkStep ⟨[], wh, []⟩).buffer.isEmpty
  · rw [if_pos hb]
    rw [List.isEmpty_iff] at hb
    rw [hb] at hf
    simpa using hf
  · rw [if_neg hb]
    have hchunk : opChunk (flushOp (results.foldl sinkStep ⟨[], wh, []⟩).write_header
          (results.foldl sinkStep ⟨[], wh, []⟩).buffer)
        = (results.foldl sinkStep ⟨[], wh, []⟩).buffer.map reindexRow := by
      unfold flushOp opChunk
      cases (results.foldl sinkStep ⟨[], wh, []⟩).write_header <;> simp
    simp only [List.map_append, List.map_cons, List.map_nil, List.flatten_append,
      hchunk, List.flatten_cons, List.flatten_nil, List.append_nil]
    exact hf

theorem runSink_headerCount (wh : Bool) (results : List (List Row))
    (hne : results.flatten ≠ []) :
    headerCount (runSink wh results) = (if wh = true then 1 else 0) := by
  unfold runSink sinkDrain
  have hf := sinkFold_chunks results ⟨[], wh, []⟩
  simp only [List.map_nil, List.flatten_nil, List.nil_append] at hf
  rcases sinkFold_header results ⟨[], wh, []⟩ with ⟨h1, h2⟩ | ⟨h1, h2⟩
  · -- no flush happened during the fold: everything is in the buffer
    have hops0 : (results.foldl sinkStep ⟨[], wh, []⟩).ops = [] := h1
    have hbuf : (results.foldl sinkStep ⟨[], wh, []⟩).buffer.map reindexRow
        = (results.flatten).map reindexRow := by
      rw [hops0] at hf
      simpa using hf
    have hbne : ¬ (results.foldl sinkStep ⟨[], wh, []⟩).buffer.isEmpty = true := by
      rw [List.isEmpty_iff]
      intro hbe
      rw [hbe] at hbuf
      exact hne (List.map_eq_nil_iff.mp hbuf.symm)
    rw [if_neg hbne, headerCount_append_flush, hops0, h2]
    simp [headerCount]
  · by_cases hb : (results.foldl sinkStep ⟨[], wh, []⟩).buffer.isEmpty
    · rw [if_pos hb, h2]
      simp [headerCount]
    · rw [if_neg hb, headerCount_append_flush, h2, h1]
      simp [headerCount]

theorem flatten_replicate_singleton (n : Nat) (r0 : Row) :
    (List.replicate n ([r0] : List Row)).flatten = List.replicate n r0 := by
  induction n with
  | zero => rfl
  | succ n ih =>
      rw [List.replicate_succ, List.replicate_succ, List.flatten_cons, ih]
      rfl

/-- C4 counterexample: a run whose output file already exists but is
empty (zero bytes — unreadable by the resume read, size 0) still
writes the header once, contradicting "never when the output file
already existed". -/
theorem C4_counterexample_empty_existing_file :
    (PriorOutput.present none 0 ≠ PriorOutput.missing) ∧
    (resumeInit (PriorOutput.present none 0)).write_header = true ∧
    headerCount (runSink (resumeInit (PriorOutput.present none 0)).write_header
        [[setk [] keyApiStatus (Value.vstr sSUCCESS)]]) = 1 := by
  refine ⟨?_, rfl, rfl⟩
  intro h
  exact PriorOutput.noConfusion h

/-- C4 (amended): across all flushes of a run that writes at least one
row, the header is written exactly once when the initial write_header
flag is set — i.e. when no output existed, or when the output existed
but was empty/unreadable with size 0 — and never otherwise (existing
readable or nonempty output); every flush appends the buffered rows
projected to the fixed FINAL_COLUMNS order, and 2500 single-row
entities with threshold 1000 on a fresh run yield exactly one header
row and 2500 data rows in any completion order. -/
theorem C4_header_once_and_chunks (prior : PriorOutput) (results : List (List Row))
    (hne : results.flatten ≠ []) :
    (headerCount (runSink (resumeInit prior).write_header results)
        = (if (resumeInit prior).write_header = true then 1 else 0)) ∧
    ((resumeInit prior).write_header = true ↔
      (prior = PriorOutput.missing ∨ prior = PriorOutput.present none 0)) ∧
    (((runSink (resumeInit prior).write_header results).map opChunk).flatten
        = (results.flatten).map reindexRow) ∧
    (∀ r0 : Row,
      headerCount (runSink true (List.replicate 2500 [r0])) = 1 ∧
      dataRowCount (runSink true (List.replicate 2500 [r0])) = 2500) := by
  refine ⟨runSink_headerCount _ results hne, ?_, runSink_chunks _ results, ?_⟩
  · cases prior with
    | missing => simp [resumeInit]
    | present readIds size =>
        cases readIds with
        | none => simp [resumeInit]
        | some ids => simp [resumeInit]
  · intro r0
    have hjoin : (List.replicate 2500 ([r0] : List Row)).flatten
        = List.replicate 2500 r0 := flatten_replicate_singleton 2500 r0
    have hne2 : (List.replicate 2500 ([r0] : List Row)).flatten ≠ [] := by
      rw [hjoin]
      intro hnil
      have hlen := congrArg List.length hnil
      rw [List.length_replicate] at hlen
      exact absurd hlen (by decide)
    constructor
    · rw [runSink_headerCount true _ hne2]
      simp
    · rw [dataRowCount_eq_join_length, runSink_chunks, hjoin,
        List.length_map, List.length_replicate]

/-- C4 witness: a fresh run (no prior output) with one single-row
entity satisfies the amended header/chunk properties. -/
theorem C4_header_once_and_chunks_witness :
    (sampleResults.flatten ≠ []) ∧
    ((headerCount (runSink (resumeInit PriorOutput.missing).write_header sampleResults)
        = (if (resumeInit PriorOutput.missing).write_header = true then 1 else 0)) ∧
      ((resumeInit PriorOutput.missing).write_header = true ↔
        (PriorOutput.missing = PriorOutput.missing ∨
          PriorOutput.missing = PriorOutput.present none 0)) ∧
      (((runSink (resumeInit PriorOutput.missing).write_header sampleResults).map
            opChunk).flatten
          = (sampleResults.flatten).map reindexRow) ∧
      (∀ r0 : Row,
        headerCount (runSink true (List.replicate 2500 [r0])) = 1 ∧
        dataRowCount (runSink true (List.replicate 2500 [r0])) = 2500)) :=
  ⟨by simp [sampleResults],
   C4_header_once_and_chunks PriorOutput.missing sampleResults (by simp [sampleResults])⟩

/-
  Claim C8 — tile grid enumeration over a bounding box.
-/

theorem mem_rangeInt (a b x : ℤ) : x ∈ rangeInt a b ↔ a ≤ x ∧ x ≤ b := by
  unfold rangeInt
  rw [List.mem_map]
  constructor
  · rintro ⟨i, hi, rfl⟩
    rw [List.mem_range] at hi
    omega
  · rintro ⟨h1, h2⟩
    refine ⟨(x - a).toNat, ?_, ?_⟩
    · rw [List.mem_range]
      omega
    · omega

theorem length_rangeInt (a b : ℤ) : (rangeInt a b).length = (b + 1 - a).toNat := by
  unfold rangeInt
  rw [List.length_map, List.length_range]

theorem toNat_card_mul (p q r s : ℤ) (hpq : p ≤ q) (hrs : r ≤ s) :
    (((q + 1 - p).toNat * (s + 1 - r).toNat : ℕ) : ℤ) = (q - p + 1) * (s - r + 1) := by
  rw [Nat.cast_mul, Int.toNat_of_nonneg (by omega), Int.toNat_of_nonneg (by omega)]
  ring

theorem mem_rectangle (xs xe ys ye : ℤ) (p : ℤ × ℤ) :
    (p ∈ (rangeInt xs xe).flatMap
        (fun x => (rangeInt ys ye).map (fun y => (x, y)))) ↔
      (xs ≤ p.1 ∧ p.1 ≤ xe ∧ ys ≤ p.2 ∧ p.2 ≤ ye) := by
  rw [List.mem_flatMap]
  constructor
  · rintro ⟨x, hx, hp⟩
    rw [List.mem_map] at hp
    obtain ⟨y, hy, rfl⟩ := hp
    rw [mem_rangeInt] at hx hy
    exact ⟨hx.1, hx.2, hy.1, hy.2⟩
  · rintro ⟨h1, h2, h3, h4⟩
    exact ⟨p.1, (mem_rangeInt _ _ _).mpr ⟨h1, h2⟩,
      List.mem_map.mpr ⟨p.2, (mem_rangeInt _ _ _).mpr ⟨h3, h4⟩, rfl⟩⟩

theorem length_rectangle (xs xe ys ye : ℤ) :
    ((rangeInt xs xe).flatMap
        (fun x => (rangeInt ys ye).map (fun y => (x, y)))).length
      = (rangeInt xs xe).length * (rangeInt ys ye).length := by
  rw [List.length_flatMap]
  have hmap : (List.length ∘ fun x : ℤ => (rangeInt ys ye).map (fun y => (x, y)))
      = (fun _ : ℤ => (rangeInt ys ye).length) := by
    funext x
    simp
  rw [hmap, List.map_const', List.sum_replicate, smul_eq_mul]

/-- The x component of the forward projection ignores the latitude,
and the y component ignores the longitude. -/
theorem lonlat_to_tile_eq (lon lat : ℝ) (z : ℕ) :
    lonlat_to_tile lon lat z = (truncR (fwdX lon z), truncR (fwdY lat z)) := rfl

theorem tiles_eq (north west south east : ℝ) (z : ℕ) :
    tiles north west south east z =
      (rangeInt (min (truncR (fwdX west z)) (truncR (fwdX east z)))
                (max (truncR (fwdX west z)) (truncR (fwdX east z)))).flatMap
        (fun x =>
          (rangeInt (min (truncR (fwdY north z)) (truncR (fwdY south z)))
                    (max (truncR (fwdY north z)) (truncR (fwdY south z)))).map
            (fun y => (x, y))) := rfl

/-- C8: for every bounding box and zoom, the enumerated tile list is
exactly the full inclusive rectangle between the per-axis min and max
of the two projected corner tiles; it is nonempty, its size is
(x_max - x_min + 1) * (y_max - y_min + 1), and it is unchanged when
the north and south inputs are swapped. -/
theorem C8_tile_grid (north west south east : ℝ) (z : ℕ) :
    (∀ p : ℤ × ℤ, p ∈ tiles north west south east z ↔
      (min (lonlat_to_tile west north z).1 (lonlat_to_tile east south z).1 ≤ p.1 ∧
        p.1 ≤ max (lonlat_to_tile west north z).1 (lonlat_to_tile east south z).1 ∧
        min (lonlat_to_tile west north z).2 (lonlat_to_tile east south z).2 ≤ p.2 ∧
        p.2 ≤ max (lonlat_to_tile west north z).2 (lonlat_to_tile east south z).2)) ∧
    tiles north west south east z ≠ [] ∧
    ((tiles north west south east z).length : ℤ)
      = (max (lonlat_to_tile west north z).1 (lonlat_to_tile east south z).1
          - min (lonlat_to_tile west north z).1 (lonlat_to_tile east south z).1 + 1)
        * (max (lonlat_to_tile west north z).2 (lonlat_to_tile east south z).2
            - min (lonlat_to_tile west north z).2 (lonlat_to_tile east south z).2 + 1) ∧
    tiles north west south east z = tiles south west north east z := by
  have hlen : (tiles north west south east z).length
      = (rangeInt (min (truncR (fwdX west z)) (truncR (fwdX east z)))
            (max (truncR (fwdX west z)) (truncR (fwdX east z)))).length
        * (rangeInt (min (truncR (fwdY north z)) (truncR (fwdY south z)))
            (max (truncR (fwdY north z)) (truncR (fwdY south z)))).length := by
    rw [tiles_eq]
    exact length_rectangle _ _ _ _
  refine ⟨?_, ?_, ?_, ?_⟩
  · intro p
    rw [tiles_eq, mem_rectangle, lonlat_to_tile_eq west north z,
      lonlat_to_tile_eq east south z]
  · intro hnil
    have hl := congrArg List.length hnil
    rw [hlen, List.length_nil, length_rangeInt, length_rangeInt] at hl
    have hx := min_le_max (a := truncR (fwdX west z)) (b := truncR (fwdX east z))
    have hy := min_le_max (a := truncR (fwdY north z)) (b := truncR (fwdY south z))
    have := Nat.mul_eq_zero.mp hl
    omega
  · rw [hlen, length_rangeInt, length_rangeInt, lonlat_to_tile_eq west north z,
      lonlat_to_tile_eq east south z]
    exact toNat_card_mul _ _ _ _ min_le_max min_le_max
  · rw [tiles_eq, tiles_eq,
      min_comm (truncR (fwdY south z)) (truncR (fwdY north z)),
      max_comm (truncR (fwdY south z)) (truncR (fwdY north z))]

/-
  Claim C7 — the forward projection rounds with int(), i.e.
  truncation toward zero, not floor; the two differ on negative
  projected values (e.g. lon < -180).
-/

/-- C7 counterexample: at lon = -360, lat = 0, z = 0 the projected x
value is -0.5; Python's int() truncates it to 0 while floor gives -1,
so lonlat_to_tile does not return the floor of the standard formula. -/
theorem C7_counterexample_not_floor :
    ¬ (lonlat_to_tile (-360) 0 0 =
        (⌊((-360 : ℝ) + 180) / 360 * (2 ^ 0 : ℝ)⌋,
         ⌊(1 - Real.log (Real.tan (rad 0) + 1 / Real.cos (rad 0)) / Real.pi) / 2
            * (2 ^ 0 : ℝ)⌋)) := by
  intro h
  have h1 : (lonlat_to_tile (-360) 0 0).1
      = ⌊((-360 : ℝ) + 180) / 360 * (2 ^ 0 : ℝ)⌋ := by rw [h]
  have hx : (lonlat_to_tile (-360) 0 0).1 = 0 := by
    show truncR (((-360 : ℝ) + 180) / 360 * (2 ^ 0 : ℝ)) = 0
    unfold truncR
    rw [if_neg (by norm_num)]
    norm_num
  have hf : (⌊((-360 : ℝ) + 180) / 360 * (2 ^ 0 : ℝ)⌋ : ℤ) = -1 := by norm_num
  rw [hx, hf] at h1
  exact absurd h1 (by decide)

/-- C7 (amended): lonlat_to_tile applies Python int() — truncation
toward zero — to the standard slippy-map formulas; whenever both
projected real values are nonnegative, in particular for
lon ≥ -180 and a latitude whose Mercator log term is at most π
(i.e. lat below ≈85.05°), the truncation coincides with the floor. -/
theorem C7_forward_projection (lon lat : ℝ) (z : ℕ)
    (hlon : -180 ≤ lon)
    (hlat : Real.log (Real.tan (rad lat) + 1 / Real.cos (rad lat)) ≤ Real.pi) :
    lonlat_to_tile lon lat z
      = (⌊(lon + 180) / 360 * (2 ^ z : ℝ)⌋,
         ⌊(1 - Real.log (Real.tan (rad lat) + 1 / Real.cos (rad lat)) / Real.pi) / 2
            * (2 ^ z : ℝ)⌋) := by
  have hx0 : (0 : ℝ) ≤ (lon + 180) / 360 * (2 ^ z : ℝ) := by
    apply mul_nonneg
    · apply div_nonneg (by linarith) (by norm_num)
    · positivity
  have hy0 : (0 : ℝ) ≤
      (1 - Real.log (Real.tan (rad lat) + 1 / Real.cos (rad lat)) / Real.pi) / 2
        * (2 ^ z : ℝ) := by
    apply mul_nonneg
    · have hdiv : Real.log (Real.tan (rad lat) + 1 / Real.cos (rad lat)) / Real.pi ≤ 1 :=
        (div_le_one Real.pi_pos).mpr hlat
      linarith
    · positivity
  unfold lonlat_to_tile truncR
  rw [if_pos hx0, if_pos hy0]

/-- C7 witness: at lon = 0, lat = 0, z = 0 both hypotheses hold and
the projection equals the floored formulas. -/
theorem C7_forward_projection_witness :
    (-180 ≤ (0 : ℝ)) ∧
    (Real.log (Real.tan (rad 0) + 1 / Real.cos (rad 0)) ≤ Real.pi) ∧
    lonlat_to_tile 0 0 0
      = (⌊((0 : ℝ) + 180) / 360 * (2 ^ 0 : ℝ)⌋,
         ⌊(1 - Real.log (Real.tan (rad 0) + 1 / Real.cos (rad 0)) / Real.pi) / 2
            * (2 ^ 0 : ℝ)⌋) := by
  have h0 : rad 0 = 0 := by unfold rad; ring
  have hlog : Real.log (Real.tan (rad 0) + 1 / Real.cos (rad 0)) = 0 := by
    rw [h0, Real.tan_zero, Real.cos_zero]
    norm_num
  refine ⟨by norm_num, ?_, C7_forward_projection 0 0 0 (by norm_num) ?_⟩
  · rw [hlog]
    exact Real.pi_pos.le
  · rw [hlog]
    exact Real.pi_pos.le

/-
  Claim C6 — round trip of the forward projection and the inverse
  reprojection. The pixel offset corresponding to (lon, lat) inside
  its tile is taken in the convention tile_coords_to_lonlat expects:
  px measures from the left edge, and py is the flipped (bottom-up)
  offset extent * (tile_y + 1 - fwdY), which is exactly what the
  y-flipping decoder hands to the reprojector in lines 106-108.
-/

theorem inverse_mercator_lat (lat : ℝ) (h1 : -90 < lat) (h2 : lat < 90) :
    deg (Real.arctan (Real.sinh
      (Real.log (Real.tan (rad lat) + 1 / Real.cos (rad lat))))) = lat := by
  have hpi := Real.pi_pos
  have hf1 : -(Real.pi / 2) < rad lat := by
    unfold rad
    nlinarith
  have hf2 : rad lat < Real.pi / 2 := by
    unfold rad
    nlinarith
  have hcos : 0 < Real.cos (rad lat) := Real.cos_pos_of_mem_Ioo ⟨hf1, hf2⟩
  have hpyth : Real.sin (rad lat) ^ 2 + Real.cos (rad lat) ^ 2 = 1 :=
    Real.sin_sq_add_cos_sq (rad lat)
  have hsin : -1 < Real.sin (rad lat) := by
    rcases lt_or_eq_of_le (Real.neg_one_le_sin (rad lat)) with h | h
    · exact h
    · exfalso
      nlinarith
  have hu : 0 < Real.tan (rad lat) + 1 / Real.cos (rad lat) := by
    rw [Real.tan_eq_sin_div_cos]
    have heq : Real.sin (rad lat) / Real.cos (rad lat) + 1 / Real.cos (rad lat)
        = (Real.sin (rad lat) + 1) / Real.cos (rad lat) := by
      ring
    rw [heq]
    apply div_pos (by linarith) hcos
  have hmul : (Real.tan (rad lat) + 1 / Real.cos (rad lat))
      * (1 / Real.cos (rad lat) - Real.tan (rad lat)) = 1 := by
    rw [Real.tan_eq_sin_div_cos]
    field_simp
    nlinarith
  have hinv : (Real.tan (rad lat) + 1 / Real.cos (rad lat))⁻¹
      = 1 / Real.cos (rad lat) - Real.tan (rad lat) :=
    inv_eq_of_mul_eq_one_right hmul
  have hsinh : Real.sinh (Real.log (Real.tan (rad lat) + 1 / Real.cos (rad lat)))
      = Real.tan (rad lat) := by
    rw [Real.sinh_eq, Real.exp_neg, Real.exp_log hu, hinv]
    ring
  rw [hsinh, Real.arctan_tan hf1 hf2]
  unfold deg rad
  field_simp

/-- C6: for latitudes strictly inside (-90, 90) and any longitude,
zoom, and positive extent, reprojecting the corresponding pixel
offset within the forward-projected tile recovers (lon, lat) exactly:
the inverse transform is the exact algebraic inverse of the forward
slippy-map projection. -/
theorem C6_roundtrip (lon lat : ℝ) (z : ℕ) (extent : ℝ) (hext : 0 < extent)
    (h1 : -90 < lat) (h2 : lat < 90) :
    tile_coords_to_lonlat
        (extent * (fwdX lon z - ((lonlat_to_tile lon lat z).1 : ℝ)))
        (extent * (((lonlat_to_tile lon lat z).2 : ℝ) + 1 - fwdY lat z))
        z (lonlat_to_tile lon lat z).1 (lonlat_to_tile lon lat z).2 extent
      = (lon, lat) := by
  have hpi := Real.pi_pos
  have hne : extent ≠ 0 := ne_of_gt hext
  have hn : ((2 : ℝ) ^ z) ≠ 0 := by positivity
  generalize (lonlat_to_tile lon lat z).1 = tx
  generalize (lonlat_to_tile lon lat z).2 = ty
  simp only [tile_coords_to_lonlat]
  rw [Prod.mk.injEq]
  constructor
  · unfold fwdX
    field_simp
    ring
  · have harg : Real.pi * (1 - 2 * ((ty : ℝ)
        + (extent - extent * ((ty : ℝ) + 1 - fwdY lat z)) / extent) / ((2 : ℝ) ^ z))
        = Real.log (Real.tan (rad lat) + 1 / Real.cos (rad lat)) := by
      unfold fwdY
      field_simp
      ring
    rw [harg]
    exact inverse_mercator_lat lat h1 h2

/-- C6 witness: the round trip at lon = 0, lat = 0, zoom 0, with the
source's extent 4096. -/
theorem C6_roundtrip_witness :
    ((0 : ℝ) < 4096) ∧ (-90 < (0 : ℝ)) ∧ ((0 : ℝ) < 90) ∧
    tile_coords_to_lonlat
        (4096 * (fwdX 0 0 - ((lonlat_to_tile 0 0 0).1 : ℝ)))
        (4096 * (((lonlat_to_tile 0 0 0).2 : ℝ) + 1 - fwdY 0 0))
        0 (lonlat_to_tile 0 0 0).1 (lonlat_to_tile 0 0 0).2 4096
      = (0, 0) :=
  ⟨by norm_num, by norm_num, by norm_num,
   C6_roundtrip 0 0 0 4096 (by norm_num) (by norm_num) (by norm_num)⟩

/-
  Claim C5 — the SUCCESS classifier: fan-out, the id → rule_id
  rename, known-column placement, and the extra_data bucket.
-/

theorem setMany_cons (b : Row) (kv : String × Value) (tl : List (String × Value)) :
    setMany b (kv :: tl) = setMany (setk b kv.1 kv.2) tl := by
  unfold setMany
  rw [List.foldl_cons]

theorem getk_setMany_notin (l : List (String × Value)) :
    ∀ (b : Row) (k : String), ¬ k ∈ l.map Prod.fst →
      getk (setMany b l) k = getk b k := by
  induction l with
  | nil => intro b k _; rfl
  | cons hd tl ih =>
      intro b k h
      rw [List.map_cons, List.mem_cons] at h
      push_neg at h
      rw [setMany_cons, ih (setk b hd.1 hd.2) k h.2,
        getk_setk_ne b hd.1 k hd.2 h.1]

theorem getk_setMany_mem (l : List (String × Value)) :
    ∀ (b : Row) (k : String) (v : Value), (k, v) ∈ l →
      (l.map Prod.fst).Nodup → getk (setMany b l) k = v := by
  induction l with
  | nil => intro b k v h _; simp at h
  | cons hd tl ih =>
      intro b k v h hnd
      rw [List.map_cons, List.nodup_cons] at hnd
      rw [setMany_cons]
      rcases List.mem_cons.mp h with h | h
      · have hk : hd.1 = k := by rw [← h]
        have hnotin : ¬ k ∈ tl.map Prod.fst := by
          rw [← hk]
          exact hnd.1
        rw [getk_setMany_notin tl _ k hnotin, ← h]
        exact getk_setk_same b k v
      · exact ih (setk b hd.1 hd.2) k v h hnd.2

theorem map_fst_knownPart (info : List (String × Value)) :
    List.Sublist ((knownPart info).map Prod.fst)
      ((info.map Prod.fst).map targetKey) := by
  unfold knownPart
  have h1 : List.Sublist
      ((info.map (fun kv => (targetKey kv.1, kv.2))).filter
        (fun kv => KNOWN_COLUMNS_SET.contains kv.1))
      (info.map (fun kv => (targetKey kv.1, kv.2))) := List.filter_sublist _
  have h2 := h1.map Prod.fst
  simpa [List.map_map, Function.comp] using h2

theorem knownPart_keys_nodup (info : List (String × Value))
    (hnd : (info.map Prod.fst).Nodup)
    (hnr : ∀ kv ∈ info, kv.1 ≠ keyRuleId) :
    ((knownPart info).map Prod.fst).Nodup := by
  have t1 : targetKey keyId = keyRuleId := by simp [targetKey]
  have t2 : ∀ k, k ≠ keyId → targetKey k = k := by
    intro k hk
    simp [targetKey, hk]
  apply List.Nodup.sublist (map_fst_knownPart info)
  apply List.Nodup.map_on ?_ hnd
  intro k1 h1 k2 h2 heq
  by_cases e1 : k1 = keyId <;> by_cases e2 : k2 = keyId
  · rw [e1, e2]
  · exfalso
    rw [e1, t1, t2 k2 e2] at heq
    obtain ⟨kv, hkv, hk2⟩ := List.mem_map.mp h2
    exact (hnr kv hkv) (hk2.trans heq.symm)
  · exfalso
    rw [e2, t1, t2 k1 e1] at heq
    obtain ⟨kv, hkv, hk1⟩ := List.mem_map.mp h1
    exact (hnr kv hkv) (hk1.trans heq)
  · rw [t2 k1 e1, t2 k2 e2] at heq
    exact heq

theorem mem_knownPart (info : List (String × Value)) (k : String) (v : Value)
    (hmem : (k, v) ∈ info) (hk : targetKey k ∈ KNOWN_COLUMNS_SET) :
    (targetKey k, v) ∈ knownPart info := by
  unfold knownPart
  rw [List.mem_filter]
  exact ⟨List.mem_map.mpr ⟨(k, v), hmem, rfl⟩, List.elem_iff.mpr hk⟩

theorem mem_bucketPart (info : List (String × Value)) (k : String) (v : Value)
    (hmem : (k, v) ∈ info) (hk : ¬ targetKey k ∈ KNOWN_COLUMNS_SET) :
    (k, v) ∈ bucketPart info := by
  unfold bucketPart
  rw [List.mem_filter]
  refine ⟨hmem, ?_⟩
  have hcb : KNOWN_COLUMNS_SET.contains (targetKey k) = false := by
    cases hcb2 : KNOWN_COLUMNS_SET.contains (targetKey k) with
    | true => exact absurd (List.elem_iff.mp hcb2) hk
    | false => rfl
  show (!(KNOWN_COLUMNS_SET.contains (targetKey k))) = true
  rw [hcb]
  rfl

theorem classifyElem_ruleId (b : Row) (info : List (String × Value))
    (hnd : (info.map Prod.fst).Nodup)
    (hclean : ∀ kv ∈ info, kv.1 ≠ keyRuleId ∧ kv.1 ≠ keyApiStatus ∧ kv.1 ≠ keyExtraData)
    (v : Value) (hmem : (keyId, v) ∈ info) :
    getk (classifyElem b info) keyRuleId = v := by
  simp only [classifyElem]
  rw [getk_setk_ne _ keyApiStatus keyRuleId _ (by decide)]
  have hrule : getk (setMany b (knownPart info)) keyRuleId = v := by
    have htk : targetKey keyId = keyRuleId := by simp [targetKey]
    have hmem2 : (keyRuleId, v) ∈ knownPart info := by
      have hm := mem_knownPart info keyId v hmem (by rw [htk]; decide)
      rw [htk] at hm
      exact hm
    exact getk_setMany_mem _ b keyRuleId v hmem2
      (knownPart_keys_nodup info hnd (fun kv hkv => (hclean kv hkv).1))
  by_cases hb : (bucketPart info).isEmpty = true
  · rw [if_pos hb]
    exact hrule
  · rw [if_neg hb, getk_setk_ne _ keyExtraData keyRuleId _ (by decide)]
    exact hrule

theorem classifyElem_known (b : Row) (info : List (String × Value))
    (hnd : (info.map Prod.fst).Nodup)
    (hclean : ∀ kv ∈ info, kv.1 ≠ keyRuleId ∧ kv.1 ≠ keyApiStatus ∧ kv.1 ≠ keyExtraData)
    (k : String) (v : Value) (hmem : (k, v) ∈ info) (hkid : k ≠ keyId)
    (hkn : k ∈ KNOWN_COLUMNS_SET) :
    getk (classifyElem b info) k = v := by
  obtain ⟨h1, h2, h3⟩ := hclean (k, v) hmem
  simp only [classifyElem]
  rw [getk_setk_ne _ keyApiStatus k _ h2]
  have htk : targetKey k = k := by simp [targetKey, hkid]
  have hrule : getk (setMany b (knownPart info)) k = v := by
    have hmem2 : (k, v) ∈ knownPart info := by
      have hm := mem_knownPart info k v hmem (by rw [htk]; exact hkn)
      rw [htk] at hm
      exact hm
    exact getk_setMany_mem _ b k v hmem2
      (knownPart_keys_nodup info hnd (fun kv hkv => (hclean kv hkv).1))
  by_cases hb : (bucketPart info).isEmpty = true
  · rw [if_pos hb]
    exact hrule
  · rw [if_neg hb, getk_setk_ne _ keyExtraData k _ h3]
    exact hrule

theorem classifyElem_extraData (b : Row) (info : List (String × Value))
    (hbucket : ¬ (bucketPart info).isEmpty = true) :
    getk (classifyElem b info) keyExtraData
      = Value.vstr (jsonDumps (Value.vdict (bucketPart info))) := by
  simp only [classifyElem]
  rw [getk_setk_ne _ keyApiStatus keyExtraData _ (by decide), if_neg hbucket,
    getk_setk_same]

theorem classifyRows_all_dicts (bRow : Row) (infos : List (List (String × Value))) :
    classifyRows bRow (infos.map Value.vdict)
      = (infos.map (classifyElem bRow), false) := by
  induction infos with
  | nil => rfl
  | cons hd tl ih => simp [classifyRows, ih]

theorem fetchFrom_ok_dict (bRow : Row) (resp : Nat → Attempt) (attempt fuel : Nat)
    (d : List (String × Value)) (infos : List (List (String × Value)))
    (hresp : resp attempt = Attempt.httpOk (some (Value.vdict d)))
    (hd : getkD d keyData (Value.vlist []) = Value.vlist (infos.map Value.vdict))
    (hne : infos ≠ []) :
    fetchFrom bRow resp attempt (fuel + 1)
      = ⟨infos.map (classifyElem bRow), [], 1⟩ := by
  have hie : (infos.map Value.vdict).isEmpty = false := by
    cases infos with
    | nil => exact absurd rfl hne
    | cons a b => rfl
  simp only [fetchFrom, hresp, hd, hie, classifyRows_all_dicts,
    Bool.false_eq_true, if_false]

/-- C5: when every attempt yields HTTP 200 with an object body whose
`data` field is a nonempty list of objects, fetch_parcel returns
exactly one SUCCESS-tagged row per list element; within each element,
the server's `id` key lands in the rule_id column, every other key in
the known column set lands in its named column, and every key whose
target is outside the known column set ends up in the single
serialized extra_data field rather than being discarded (stated for
elements whose keys are distinct and do not collide with the
bookkeeping columns rule_id, api_status, extra_data). -/
theorem C5_success_classifier (row : Row) (d : List (String × Value))
    (infos : List (List (String × Value)))
    (hd : getkD d keyData (Value.vlist []) = Value.vlist (infos.map Value.vdict))
    (hne : infos ≠ []) :
    ((fetch_parcel row (fun _ => Attempt.httpOk (some (Value.vdict d)))).rows
        = infos.map (classifyElem (base_row row))) ∧
    ∀ info ∈ infos,
      (getk (classifyElem (base_row row) info) keyApiStatus
          = Value.vstr sSUCCESS) ∧
      ((info.map Prod.fst).Nodup →
        (∀ kv ∈ info, kv.1 ≠ keyRuleId ∧ kv.1 ≠ keyApiStatus ∧ kv.1 ≠ keyExtraData) →
        (∀ v : Value, (keyId, v) ∈ info →
          getk (classifyElem (base_row row) info) keyRuleId = v) ∧
        (∀ (k : String) (v : Value), (k, v) ∈ info → k ≠ keyId →
          k ∈ KNOWN_COLUMNS_SET →
          getk (classifyElem (base_row row) info) k = v)) ∧
      ((¬ (bucketPart info).isEmpty = true) →
        getk (classifyElem (base_row row) info) keyExtraData
          = Value.vstr (jsonDumps (Value.vdict (bucketPart info)))) ∧
      (∀ (k : String) (v : Value), (k, v) ∈ info →
        ¬ targetKey k ∈ KNOWN_COLUMNS_SET → (k, v) ∈ bucketPart info) := by
  constructor
  · have h5 := fetchFrom_ok_dict (base_row row)
      (fun _ => Attempt.httpOk (some (Value.vdict d))) 1 4 d infos rfl hd hne
    have heq : fetch_parcel row (fun _ => Attempt.httpOk (some (Value.vdict d)))
        = ⟨infos.map (classifyElem (base_row row)), [], 1⟩ := h5
    rw [heq]
  · intro info _
    refine ⟨classifyElem_apiStatus _ info, ?_, classifyElem_extraData _ info, ?_⟩
    · intro hnd hclean
      exact ⟨fun v hv => classifyElem_ruleId _ info hnd hclean v hv,
        fun k v hkv hkid hkn => classifyElem_known _ info hnd hclean k v hkv hkid hkn⟩
    · intro k v hkv hkn
      exact mem_bucketPart info k v hkv hkn

/-- C5 witness: a body whose data list holds one object with a single
`id` key satisfies both theorem hypotheses and the classifier
properties. -/
theorem C5_success_classifier_witness :
    (getkD sampleD keyData (Value.vlist [])
        = Value.vlist ([sampleInfo].map Value.vdict)) ∧
    (([sampleInfo] : List (List (String × Value))) ≠ []) ∧
    (((fetch_parcel [] (fun _ => Attempt.httpOk (some (Value.vdict sampleD)))).rows
        = [sampleInfo].map (classifyElem (base_row []))) ∧
      ∀ info ∈ [sampleInfo],
        (getk (classifyElem (base_row []) info) keyApiStatus
            = Value.vstr sSUCCESS) ∧
        ((info.map Prod.fst).Nodup →
          (∀ kv ∈ info, kv.1 ≠ keyRuleId ∧ kv.1 ≠ keyApiStatus ∧ kv.1 ≠ keyExtraData) →
          (∀ v : Value, (keyId, v) ∈ info →
            getk (classifyElem (base_row []) info) keyRuleId = v) ∧
          (∀ (k : String) (v : Value), (k, v) ∈ info → k ≠ keyId →
            k ∈ KNOWN_COLUMNS_SET →
            getk (classifyElem (base_row []) info) k = v)) ∧
        ((¬ (bucketPart info).isEmpty = true) →
          getk (classifyElem (base_row []) info) keyExtraData
            = Value.vstr (jsonDumps (Value.vdict (bucketPart info)))) ∧
        (∀ (k : String) (v : Value), (k, v) ∈ info →
          ¬ targetKey k ∈ KNOWN_COLUMNS_SET → (k, v) ∈ bucketPart info)) :=
  ⟨rfl, by simp,
   C5_success_classifier [] sampleD [sampleInfo] rfl (by simp)⟩

/-- C10 witness: with parcel_id bound to the falsy integer 0 and an
empty property dict, both parts of the claim hold at a concrete
feature. -/
theorem C10_falsy_id_skipped_witness :
    truthy (Value.vint 0) = false ∧
    ((process_feature (fun _ => (0, 0)) 0 0 (setk [] keyParcelId (Value.vint 0)) Value.vnone
        = process_feature (fun _ => (0, 0)) 0 0 (removeKey [] keyParcelId) Value.vnone) ∧
      (process_feature (fun _ => (0, 0)) 0 0 (setk [] keyParcelObjectid (Value.vint 0)) Value.vnone
        = process_feature (fun _ => (0, 0)) 0 0 (removeKey [] keyParcelObjectid) Value.vnone) ∧
      ((process_feature (fun _ => (0, 0)) 0 0 [] Value.vnone).isSome = true ↔
        (truthy (extractParcelId []) = true ∧
          truthy (extractParcelObjectid []) = true ∧ truthy Value.vnone = true))) :=
  ⟨rfl, C10_falsy_id_skipped (fun _ => (0, 0)) 0 0 [] Value.vnone (Value.vint 0) rfl⟩

end Scraper
